import Mathlib

/-!
Verification of the lexical core of the color-parser repository.

The main embedding follows `src/src/Tokenizer.ts` (the table-driven DFA
tokenizer): character classification, the transition table `T`, the
accepting-state map, the driver loop with its manual numeric-literal
transitions, string literals, bare punctuation, the `DiagnosticError`
shape and the pure `formatDiagnostic` renderer.  Two further embeddings
cover the refactored `CharacterStream` (second half of
`src/src/CharacterStream.ts`) and the draft `HexColor` scanner
(`src/unnamed/part_006`, refactored variant).

JS strings returned by `current()` / `consume()` are one-character
strings or the empty string `''`; they are modelled as `Option Char`
(`none` = `''`).  Loops are modelled by structural recursion on an
explicit fuel argument; every call site passes `source.length + 1`
fuel, which is shown sufficient where a theorem needs it.
-/

namespace CP

/-- One-character-or-empty JS string (the result of `current()`/`consume()`)
rendered back to a string, for the places the source concatenates it. -/
def optStr : Option Char → String
  | some c => String.mk [c]
  | none => ""

/-- `IS_DIGIT = /\d/` (ASCII digits). -/
def IS_DIGIT (c : Char) : Bool := c.isDigit

/-- `IS_LETTER = /[a-zA-Z]/`. -/
def IS_LETTER (c : Char) : Bool := c.isAlpha

/-- `IS_WHITESPACE = /\s/`: space, tab, LF, VT, FF, CR, NBSP, BOM and the
Unicode space separators matched by the JS `\s` class. -/
def IS_WHITESPACE (c : Char) : Bool :=
  c = ' ' || c = '\t' || c = '\n' || c.val = 11 || c.val = 12 || c = '\r' ||
  c.val = 0xa0 || c.val = 0x1680 || (0x2000 ≤ c.val && c.val ≤ 0x200a) ||
  c.val = 0x2028 || c.val = 0x2029 || c.val = 0x202f || c.val = 0x205f ||
  c.val = 0x3000 || c.val = 0xfeff

/-- `TokenType` of `src/src/Tokenizer.ts` (lines 62-86). -/
inductive TokenType where
  | IDENTIFIER | STRING | HEXVALUE | NUMBER | PERCENT | DIMENSION
  | PLUS | MINUS | STAR
  | COMMA | SLASH | LPAREN | RPAREN | DELIMITER
  | WHITESPACE | EOF
deriving DecidableEq, Repr, Fintype

/-- `CharClass` of `src/src/Tokenizer.ts` (lines 109-127). -/
inductive CharClass where
  | Digit | Dot | Quote | Plus | Minus | Hash | Letter | Percent
  | LParen | RParen | Comma | Slash | Operator | Whitespace | EOF | Invalid | Other
deriving DecidableEq, Repr, Fintype

/-- `classify` (lines 135-162).  `none` models the empty string returned by
`current()` at end of input; the `null`/`undefined → Invalid` branch is
unreachable from the driver and omitted. -/
def classify : Option Char → CharClass
  | none => CharClass.EOF
  | some ch =>
    match ch with
    | '.' => .Dot
    | '\'' => .Quote
    | '"' => .Quote
    | '+' => .Plus
    | '-' => .Minus
    | '#' => .Hash
    | '%' => .Percent
    | '(' => .LParen
    | ')' => .RParen
    | ',' => .Comma
    | '/' => .Slash
    | '*' => .Operator
    | _ =>
      if IS_DIGIT ch then .Digit
      else if IS_LETTER ch then .Letter
      else if IS_WHITESPACE ch then .Whitespace
      else .Other

/-- `State` (lines 168-180). -/
inductive State where
  | Start | Whitespace | Sign | Integer | Fraction | Dimension
  | Identifier | Hex | ExponentStart | Exponent | Percent
deriving DecidableEq, Repr, Fintype

/-- The transition table `T` (lines 186-254); `none` is an undefined entry. -/
def T : State → CharClass → Option State
  | .Start, .Whitespace => some .Whitespace
  | .Start, .Hash => some .Hex
  | .Start, .Digit => some .Integer
  | .Start, .Dot => some .Fraction
  | .Start, .Letter => some .Identifier
  | .Whitespace, .Whitespace => some .Whitespace
  | .Sign, .Digit => some .Integer
  | .Sign, .Dot => some .Fraction
  | .Integer, .Digit => some .Integer
  | .Integer, .Dot => some .Fraction
  | .Integer, .Percent => some .Percent
  | .Integer, .Letter => some .Dimension
  | .Fraction, .Digit => some .Fraction
  | .Fraction, .Percent => some .Percent
  | .Fraction, .Letter => some .Dimension
  | .ExponentStart, .Plus => some .Exponent
  | .ExponentStart, .Minus => some .Exponent
  | .ExponentStart, .Digit => some .Exponent
  | .Exponent, .Digit => some .Exponent
  | .Dimension, .Letter => some .Dimension
  | .Identifier, .Letter => some .Identifier
  | .Identifier, .Digit => some .Identifier
  | .Hex, .Digit => some .Hex
  | .Hex, .Letter => some .Hex
  | _, _ => none

/-- The accepting-state map `Accepting` (lines 260-269). -/
def Accepting : State → Option TokenType
  | .Whitespace => some .WHITESPACE
  | .Integer => some .NUMBER
  | .Fraction => some .NUMBER
  | .Exponent => some .NUMBER
  | .Dimension => some .DIMENSION
  | .Identifier => some .IDENTIFIER
  | .Hex => some .HEXVALUE
  | .Percent => some .PERCENT
  | _ => none

/-- `Position` (lines 92-96). -/
structure Position where
  index : Nat
  line : Nat
  column : Nat
deriving DecidableEq, Repr

/-- `Token` (lines 98-103). -/
structure Token where
  type : TokenType
  value : String
  start : Position
  «end» : Position
deriving DecidableEq, Repr

/-- `DiagnosticError` (lines 573-584): message, full source, optional span,
optional hint. -/
structure DiagnosticError where
  message : String
  source : String
  start : Option Position := none
  «end» : Option Position := none
  hint : Option String := none
deriving DecidableEq, Repr

/-- The mutable tokenizer state: the source text and the `index`/`line`/
`column` cursor plus the `_tokens` accumulator (lines 283-287). -/
structure St where
  source : List Char
  index : Nat
  line : Nat
  column : Nat
  tokens : List Token
deriving Repr

/-- `current()` (lines 550-554): the character at the cursor, `none` for `''`
at or past the end. -/
def current (st : St) : Option Char := st.source.get? st.index

/-- `isEof()` (lines 564-566). -/
def isEof (st : St) : Bool := st.source.length ≤ st.index

/-- `position()` (lines 556-562): an immutable snapshot of the cursor. -/
def position (st : St) : Position := ⟨st.index, st.line, st.column⟩

/-- `consume()` (lines 537-548): return the current character (`''` past the
end) and advance; a newline bumps `line` and resets `column`, anything else
(including the empty string) bumps `column`.  The index increments even when
consuming past the end, exactly as `this.source[this.index++] ?? ''` does. -/
def consume (st : St) : Option Char × St :=
  let ch := st.source.get? st.index
  if ch = some '\n' then
    (ch, { st with index := st.index + 1, line := st.line + 1, column := 1 })
  else
    (ch, { st with index := st.index + 1, column := st.column + 1 })

/-- `source.slice(a, b)` for `0 ≤ a ≤ b` as used by the driver (clamped at
the end of the text, like the JS method). -/
def jsSlice (src : List Char) (a b : Nat) : String :=
  String.mk ((src.drop a).take (b - a))

/-- `value.slice(0, -1)`: drop the final character (the `%` of a percent
token). -/
def jsSliceDropLast (s : String) : String :=
  String.mk (s.toList.take (s.toList.length - 1))

/-- `source.slice(t.start.index, t.end.index)`: the source characters a token
spans, used to state the lossless-coverage property. -/
def sliceOfToken (src : List Char) (t : Token) : List Char :=
  (src.drop t.start.index).take (t.«end».index - t.start.index)

/-- `createToken` (lines 420-422): push one token onto `_tokens`. -/
def createToken (st : St) (type : TokenType) (value : String)
    (start stop : Position) : St :=
  { st with tokens := st.tokens ++ [⟨type, value, start, stop⟩] }

/-- `handleNumericLiteral` (lines 462-483): in `Integer`/`Fraction`, a letter
is diverted manually — `e`/`E` to `ExponentStart`, any other letter to
`Dimension`; otherwise the table applies (`null` = `none`). -/
def handleNumericLiteral (currentState : State) (char : Option Char)
    (charClass : CharClass) : Option State :=
  if currentState = .Integer || currentState = .Fraction then
    if charClass = .Letter then
      if char = some 'e' || char = some 'E' then some .ExponentStart
      else some .Dimension
    else none
  else none

/-- The inner DFA loop of `tokenize` (lines 314-327) including
`NumericLiterals` (lines 447-454): classify the current character, apply the
manual numeric transition (consuming once when it fires), then look up the
table with the *same* character class; stop on an undefined entry, otherwise
consume and continue.  Fuel-structural; call sites pass `source.length + 1`. -/
def munch : Nat → St → State → St × State
  | 0, st, state => (st, state)
  | fuel + 1, st, state =>
    let innerChar := current st
    let innerCharClass := classify innerChar
    let stepped : State × St :=
      match handleNumericLiteral state innerChar innerCharClass with
      | some specialState => (specialState, (consume st).2)
      | none => (state, st)
    match T stepped.1 innerCharClass with
    | none => (stepped.2, stepped.1)
    | some nextState => munch fuel (consume stepped.2).2 nextState

/-- The `specificTokens` map of `Delimiters` (lines 428-436). -/
def specificTokens : Char → Option TokenType
  | '(' => some .LPAREN
  | ')' => some .RPAREN
  | ',' => some .COMMA
  | '/' => some .SLASH
  | '+' => some .PLUS
  | '-' => some .MINUS
  | '*' => some .STAR
  | _ => none

/-- `Delimiters` (lines 424-445): consume one character; map it through
`specificTokens`, falling back to a `DELIMITER` token for anything else. -/
def Delimiters (st : St) : St :=
  let start := position st
  let consumed := consume st
  let st := consumed.2
  let type : TokenType :=
    match consumed.1 with
    | some c => (specificTokens c).getD .DELIMITER
    | none => .DELIMITER
  createToken st type (optStr consumed.1) start (position st)

/-- The `Unterminated string literal` diagnostic of `handleStringLiteral`
(lines 528-534); the error carries the state at the throw so that the
already-accumulated tokens stay observable through the `tokens` getter. -/
def throwUnterminated (st : St) (quoteChar : Option Char)
    (startPos : Position) : Except (St × DiagnosticError) St :=
  .error (st,
    { message := "Unterminated string literal"
      source := String.mk st.source
      start := some startPos
      «end» := some (position st)
      hint := some ("A string that starts with " ++ optStr quoteChar ++
        " must be closed with a matching " ++ optStr quoteChar ++ ".") })

/-- The scanning loop of `handleStringLiteral` (lines 504-524).  Note the
escape test of line 515 compares the one-character `current()` against the
TWO-character string `'\\\\'` (two backslashes once the TS escapes are
decoded), so that branch can never fire; it is transcribed verbatim. -/
def stringLoop : Nat → St → Option Char → Position → List Char →
    Except (St × DiagnosticError) St
  | 0, st, quoteChar, startPos, _ => throwUnterminated st quoteChar startPos
  | fuel + 1, st, quoteChar, startPos, value =>
    if isEof st then throwUnterminated st quoteChar startPos
    else
      let char := current st
      if char = quoteChar then
        let st := (consume st).2
        .ok (createToken st .STRING (String.mk value) startPos (position st))
      else if optStr char = "\\\\" then
        let st := (consume st).2
        let consumed := consume st
        stringLoop fuel consumed.2 quoteChar startPos
          (value ++ (optStr consumed.1).toList)
      else
        let consumed := consume st
        stringLoop fuel consumed.2 quoteChar startPos
          (value ++ (optStr consumed.1).toList)

/-- `handleStringLiteral` (lines 499-535): remember the start, consume the
opening quote, scan until the matching quote or end of input. -/
def handleStringLiteral (st : St) : Except (St × DiagnosticError) St :=
  let startPos := position st
  let consumed := consume st
  stringLoop (st.source.length + 1) consumed.2 consumed.1 startPos []

/-- One iteration of the `tokenize` outer loop (lines 306-391): intercept
string literals, run the DFA to its first undefined transition, then emit a
token (or raise a diagnostic) according to the halting state. -/
def tokenizeStep (st : St) : Except (St × DiagnosticError) St :=
  if classify (current st) = .Quote then handleStringLiteral st
  else
    let startPosition := position st
    let munched := munch (st.source.length + 1) st .Start
    let st := munched.1
    let state := munched.2
    let endPosition := position st
    let tokenValue := jsSlice st.source startPosition.index endPosition.index
    match state with
    | .Start =>
      .ok (if isEof st then st else Delimiters st)
    | .Whitespace =>
      .ok (createToken st .WHITESPACE tokenValue startPosition endPosition)
    | .Percent =>
      .ok (createToken st .PERCENT (jsSliceDropLast tokenValue)
        startPosition endPosition)
    | .Identifier | .Hex | .Integer | .Fraction | .Exponent | .Dimension =>
      match Accepting state with
      | some type =>
        .ok (createToken st type tokenValue startPosition endPosition)
      | none =>
        .error (st,
          { message := "Invalid token state"
            source := String.mk st.source
            start := some startPosition
            «end» := some endPosition
            hint := some "The tokenizer entered a state that is not a valid accepting state." })
    | _ =>
      .error (st,
        { message := "Invalid token"
          source := String.mk st.source
          start := some startPosition
          «end» := some endPosition
          hint := some "Check the CSS color syntax at this location" })

/-- The `tokenize` outer loop (lines 306-392), fuel-structural; `none` marks
fuel exhaustion, which `tokenizeLoop_ne_none` below rules out for the fuel
passed by `tokenize`. -/
def tokenizeLoop : Nat → St → Option (Except (St × DiagnosticError) St)
  | 0, _ => none
  | fuel + 1, st =>
    if isEof st then some (.ok st)
    else
      match tokenizeStep st with
      | .error e => some (.error e)
      | .ok st' => tokenizeLoop fuel st'

/-- `tokenize()` (lines 302-411).  On normal exit one zero-width EOF token is
appended; a thrown `DiagnosticError` is caught by the surrounding
`try`/`catch`, logged with `console.error(formatDiagnostic(error))`, and NOT
re-thrown — the method returns normally and the tokens pushed before the
throw remain exposed through the `tokens` getter.  The returned pair is
(`_tokens` after the call, the caught diagnostic if one was thrown). -/
def tokenize (input : String) : List Token × Option DiagnosticError :=
  let st0 : St := ⟨input.toList, 0, 1, 1, []⟩
  match tokenizeLoop (input.toList.length + 1) st0 with
  | some (.ok st) =>
    let eofPosition := position st
    let st := createToken st .EOF "<end>" eofPosition eofPosition
    (st.tokens, none)
  | some (.error (st, e)) => (st.tokens, some e)
  | none => ([], none)

/-- The constructor (lines 289-292): `this.source = input ?? ''` and
`if (this.source.length > 0) this.tokenize()` — tokenization is skipped
entirely for the empty string, leaving `_tokens` empty. -/
def tokenizerConstructor (input : String) : List Token × Option DiagnosticError :=
  if input.length > 0 then tokenize input else ([], none)

/-! ## `formatDiagnostic` (lines 597-628) -/

/-- `err.source.split(/\r?\n/)` on a character list: split at every `'\n'`,
additionally dropping one `'\r'` immediately before it.  The accumulator
holds the current segment reversed. -/
def splitRNAux : List Char → List Char → List (List Char)
  | [], acc => [acc.reverse]
  | c :: rest, acc =>
    if c = '\n' then
      (match acc with
       | '\r' :: acc' => acc'.reverse
       | _ => acc.reverse) :: splitRNAux rest []
    else splitRNAux rest (c :: acc)

/-- `err.source.split(/\r?\n/)` as a list of lines. -/
def splitRN (s : String) : List String := (splitRNAux s.toList []).map String.mk

/-- `' '.repeat(n)` / `'^'.repeat(n)` for the nonnegative counts the
formatter produces.  (For `column = 0` — only possible when a diagnostic is
built without a start position — the JS code would compute `repeat(-1)` and
throw a `RangeError`; the theorem about the formatter therefore assumes a
present start position with `column ≥ 1`, which holds for every position the
tokenizer creates.) -/
def repeatChar (c : Char) (n : Nat) : String := String.mk (List.replicate n c)

/-- `[ ... ].join('\n')`. -/
def joinNL : List String → String
  | [] => ""
  | [s] => s
  | s :: rest => s ++ "\n" ++ joinNL rest

/-- `formatDiagnostic` (lines 597-628): a pure function of the error alone.
Missing positions default to zeroes through `?? 0`; the displayed line is
`lines[start.line - 1] ?? ''` (an index of `-1` yields `''`), the caret line
is `start.column - 1` spaces followed by `max(1, end.index - start.index)`
carets, and the hint, when present, is appended as `'\nHint: ' + hint`. -/
def formatDiagnostic (err : DiagnosticError) : String :=
  let startIndex := (err.start.map Position.index).getD 0
  let startLine := (err.start.map Position.line).getD 0
  let startColumn := (err.start.map Position.column).getD 0
  let endIndex := (err.«end».map Position.index).getD 0
  let lines := splitRN err.source
  let line :=
    if (startLine : Int) - 1 < 0 then ""
    else (lines.get? (startLine - 1)).getD ""
  let startCol := startColumn - 1
  let width := max 1 (endIndex - startIndex)
  let caret := repeatChar ' ' startCol ++ repeatChar '^' width
  let location := "line " ++ toString startLine ++ ", column " ++ toString startColumn
  joinNL
    [ err.message ++ " (" ++ location ++ ")"
    , ""
    , line
    , caret
    , match err.hint with
      | some h => "\nHint: " ++ h
      | none => "" ]

end CP

/-!
## The refactored `CharacterStream`

Embedding of the second (refactored) class in `src/src/CharacterStream.ts`
(lines 339-687): the `Character` record, the ordered classifier, and the
stream with its `cursor`, current `character`, and `history`.  NFC
normalization (`input.normalize('NFC')`) is modelled as the identity, which
it is on the inputs considered here.
-/

namespace CSR

/-- `Character.CharType` (lines 451-488). -/
inductive CharType where
  | Whitespace | Newline | EOF
  | Digit | Unicode | Hex | Letter | Quote | Dot
  | LParen | RParen | LBrace | RBrace | LBracket | RBracket
  | Comma | SemiColon | Colon | Equals | Plus | Minus | Slash | Percent
  | Underscore | Operator
  | Hash | Exponent | Other | Error
deriving DecidableEq, Repr

/-- `Character.CharMap` (lines 490-521). -/
def CharMap : String → Option CharType
  | "%" => some .Percent
  | "." => some .Dot
  | "," => some .Comma
  | "/" => some .Slash
  | "(" => some .LParen
  | ")" => some .RParen
  | "+" => some .Plus
  | "-" => some .Minus
  | "_" => some .Underscore
  | "#" => some .Hash
  | "!" => some .Operator
  | "\\" => some .Operator
  | "*" => some .Operator
  | "@" => some .Operator
  | "$" => some .Operator
  | "^" => some .Operator
  | "&" => some .Operator
  | "\x7b" => some .Operator
  | "\x7d" => some .Operator
  | "[" => some .Operator
  | "]" => some .Operator
  | "|" => some .Operator
  | ":" => some .Operator
  | ";" => some .Operator
  | "<" => some .Operator
  | ">" => some .Operator
  | "?" => some .Operator
  | "~" => some .Operator
  | "`" => some .Operator
  | "=" => some .Operator
  | _ => none

/-- `Character.CharSpec` predicates (lines 523-532), in insertion order:
Newline, Whitespace, Letter, Digit, Quote, Exponent, Hex.  Each regex is
unanchored, so it matches when any character of the string does. -/
def isNewlineStr (s : String) : Bool := s.toList.any fun c => c = '\n' || c = '\r'

def isWhitespaceStr (s : String) : Bool := s.toList.any CP.IS_WHITESPACE

def isLetterStr (s : String) : Bool := s.toList.any Char.isAlpha

def isDigitStr (s : String) : Bool := s.toList.any Char.isDigit

def isQuoteStr (s : String) : Bool :=
  s.toList.any fun c => c = '"' || c = '\'' || c = '`'

def isExponentStr (s : String) : Bool := s.toList.any fun c => c = 'e' || c = 'E'

def isHexStr (s : String) : Bool :=
  s.toList.any fun c =>
    c.isDigit || ('a' ≤ c && c ≤ 'f') || ('A' ≤ c && c ≤ 'F')

/-- `Character.classify` (lines 534-541): the empty string is falsy and maps
to `Other`; then the literal `CharMap`, then the `CharSpec` predicates in
order, then `Other`. -/
def classify (char : String) : CharType :=
  if char = "" then .Other
  else
    match CharMap char with
    | some t => t
    | none =>
      if isNewlineStr char then .Newline
      else if isWhitespaceStr char then .Whitespace
      else if isLetterStr char then .Letter
      else if isDigitStr char then .Digit
      else if isQuoteStr char then .Quote
      else if isExponentStr char then .Exponent
      else if isHexStr char then .Hex
      else .Other

/-- `Character` (lines 375-392): a value snapshot with its classification and
position. -/
structure Character where
  value : String
  type : CharType
  index : Nat
  line : Nat
  column : Nat
deriving DecidableEq, Repr

/-- `CharacterStream` state (lines 552-561): the normalized source, the
current character, the cursor (next unread index), and the history. -/
structure CharacterStream where
  source : List Char
  character : Character
  cursor : Nat
  history : List Character
deriving DecidableEq, Repr

/-- `init()` (lines 568-587): cursor 0, empty history; an empty source makes
the current character the EOF character at position (0, 1, 1), otherwise the
first source character at (0, 1, 1), classified by the `Character`
constructor. -/
def init (source : List Char) : CharacterStream :=
  if source.length = 0 then
    { source := source
      character := ⟨"", .EOF, 0, 1, 1⟩
      cursor := 0
      history := [] }
  else
    { source := source
      character := ⟨CP.optStr (source.get? 0), classify (CP.optStr (source.get? 0)), 0, 1, 1⟩
      cursor := 0
      history := [] }

/-- `EOFChar()` (lines 678-686): the zero-width EOF character one column past
the current one. -/
def EOFChar (s : CharacterStream) : Character :=
  ⟨"", .EOF, s.cursor, s.character.line, s.character.column + 1⟩

/-- `isAtEnd()` (lines 668-670). -/
def isAtEnd (s : CharacterStream) : Bool := s.source.length ≤ s.cursor

/-- `advance()` (lines 635-655): bump the cursor; at the end install the EOF
character, otherwise build the next character, bumping `line`/resetting
`column` when the previous character was a newline. -/
def advance (s : CharacterStream) : CharacterStream :=
  let prev := s.character
  let s := { s with cursor := s.cursor + 1 }
  if isAtEnd s then { s with character := EOFChar s }
  else
    let value := CP.optStr (s.source.get? s.cursor)
    let isNewline := prev.value = "\n" || prev.type = CharType.Newline
    { s with character :=
        ⟨value, classify value, s.cursor,
         if isNewline then prev.line + 1 else prev.line,
         if isNewline then 1 else prev.column + 1⟩ }

/-- `consume()` (lines 625-632): return the current character; unless it is
the EOF character, push it onto the history and advance.  At EOF nothing is
pushed and nothing advances. -/
def consume (s : CharacterStream) : Character × CharacterStream :=
  let cur := s.character
  if cur.type ≠ CharType.EOF then
    (cur, advance { s with history := s.history ++ [cur] })
  else (cur, s)

/-- `n` repeated `consume()` calls, keeping only the final stream state. -/
def consumeN : Nat → CharacterStream → CharacterStream
  | 0, s => s
  | n + 1, s => consumeN n (consume s).2

end CSR

/-!
## The draft `HexColor` scanner

Embedding of `Tokenizer.HexColor` from the refactored draft in
`src/unnamed/part_006` (lines 310-329), together with the `current`/`spec`
helpers it uses (lines 441-482).  This is the draft that validates hex color
lengths: total lengths 4, 5, 7, 9 including the `#` (3, 4, 6, 8 hex digits)
are accepted, anything else throws
`SyntaxError('HexColor, invalid length: N.')` naming the actual length.
-/

namespace HexDraft

/-- Scanner state: source and cursor. -/
structure St where
  source : List Char
  cursor : Nat
deriving Repr

/-- `current()` (lines 447-451): the character at the cursor (or `''` past
the end); for a cursor beyond `length` the last character (`''` when the
source is empty). -/
def current (st : St) : String :=
  if st.cursor ≤ st.source.length then CP.optStr (st.source.get? st.cursor)
  else CP.optStr (st.source.get? (st.source.length - 1))

/-- `spec.isHexDigit` (line 476): `/[0-9a-fA-F]/.test(char)`. -/
def isHexDigit (s : String) : Bool :=
  s.toList.any fun c => c.isDigit || ('a' ≤ c && c ≤ 'f') || ('A' ≤ c && c ≤ 'F')

/-- A draft token (part_006 tokens carry numeric `start`/`end` offsets). -/
structure DraftToken where
  type : String
  value : String
  start : Nat
  «end» : Nat
deriving DecidableEq, Repr

/-- `while (this.spec.isHexDigit(this.current())) this.consume();`
(line 313); `consume` just returns the current character and bumps the
cursor. -/
def hexLoop : Nat → St → St
  | 0, st => st
  | fuel + 1, st =>
    if isHexDigit (current st) then hexLoop fuel { st with cursor := st.cursor + 1 }
    else st

/-- `HexColor()` (lines 310-329): remember `start = cursor++` (past the `#`),
consume hex digits, slice the whole run including the `#`, and accept total
lengths 4, 5, 7, 9 — otherwise throw the invalid-length `SyntaxError`. -/
def HexColor (st : St) : Except String DraftToken :=
  let start := st.cursor
  let st := { st with cursor := st.cursor + 1 }
  let st := hexLoop (st.source.length + 1) st
  let hexColor := CP.jsSlice st.source start st.cursor
  if hexColor.length = 4 || hexColor.length = 5 || hexColor.length = 7 ||
      hexColor.length = 9 then
    .ok ⟨"HEXCOLOR", hexColor, start, st.cursor⟩
  else
    .error ("HexColor, invalid length: " ++ toString hexColor.length ++ ".")

end HexDraft

/-!
## Supporting lemmas about the DFA tokenizer

Bookkeeping facts used by the lossless-coverage theorem: `consume` only
moves the cursor forward, the DFA loop pushes no tokens, a loop that halts
back in `Start` consumed nothing, and every successful driver iteration
pushes exactly one token whose span is the consumed interval.
-/

namespace CP

theorem consume_source (st : St) : (consume st).2.source = st.source := by
  simp only [consume]; split <;> rfl

theorem consume_index (st : St) : (consume st).2.index = st.index + 1 := by
  simp only [consume]; split <;> rfl

theorem consume_tokens (st : St) : (consume st).2.tokens = st.tokens := by
  simp only [consume]; split <;> rfl

theorem createToken_source (st : St) (t : TokenType) (v : String)
    (a b : Position) : (createToken st t v a b).source = st.source := rfl

theorem createToken_index (st : St) (t : TokenType) (v : String)
    (a b : Position) : (createToken st t v a b).index = st.index := rfl

theorem createToken_tokens (st : St) (t : TokenType) (v : String)
    (a b : Position) :
    (createToken st t v a b).tokens = st.tokens ++ [⟨t, v, a, b⟩] := rfl

theorem position_createToken (st : St) (t : TokenType) (v : String)
    (a b : Position) : position (createToken st t v a b) = position st := rfl

/-- Every target of the transition table is a proper (non-`Start`) state. -/
theorem T_target_ne_start : ∀ s c s', T s c = some s' → s' ≠ State.Start := by
  decide

/-- The manual numeric transition only ever targets `ExponentStart` or
`Dimension`. -/
theorem handleNumericLiteral_target (s : State) (ch : Option Char)
    (c : CharClass) (x : State) (h : handleNumericLiteral s ch c = some x) :
    x = State.ExponentStart ∨ x = State.Dimension := by
  unfold handleNumericLiteral at h
  split at h
  · split at h
    · split at h
      · exact Or.inl (Option.some_injective _ h).symm
      · exact Or.inr (Option.some_injective _ h).symm
    · exact absurd h (by simp)
  · exact absurd h (by simp)

/-- From `Start` the manual numeric transition never fires. -/
theorem handleNumericLiteral_start (ch : Option Char) (c : CharClass) :
    handleNumericLiteral State.Start ch c = none := rfl

/-- The DFA loop never touches the token list or the source and only moves
the cursor forward. -/
theorem munch_pres (fuel : Nat) (st : St) (s : State) :
    (munch fuel st s).1.source = st.source ∧
    (munch fuel st s).1.tokens = st.tokens ∧
    st.index ≤ (munch fuel st s).1.index := by
  induction fuel generalizing st s with
  | zero => exact ⟨rfl, rfl, Nat.le_refl _⟩
  | succ fuel ih =>
    simp only [munch]
    cases hn : handleNumericLiteral s (current st) (classify (current st)) with
    | none =>
      simp only
      cases ht : T s (classify (current st)) with
      | none => exact ⟨rfl, rfl, Nat.le_refl _⟩
      | some ns =>
        obtain ⟨h1, h2, h3⟩ := ih (consume st).2 ns
        refine ⟨h1.trans (consume_source st), h2.trans (consume_tokens st), ?_⟩
        calc st.index ≤ st.index + 1 := Nat.le_succ _
          _ = (consume st).2.index := (consume_index st).symm
          _ ≤ _ := h3
    | some sp =>
      simp only
      cases ht : T sp (classify (current st)) with
      | none =>
        refine ⟨consume_source st, consume_tokens st, ?_⟩
        rw [consume_index]; exact Nat.le_succ _
      | some ns =>
        obtain ⟨h1, h2, h3⟩ := ih (consume (consume st).2).2 ns
        refine ⟨?_, ?_, ?_⟩
        · rw [h1, consume_source, consume_source]
        · rw [h2, consume_tokens, consume_tokens]
        · calc st.index ≤ st.index + 2 := by omega
            _ = (consume (consume st).2).2.index := by
                rw [consume_index, consume_index]
            _ ≤ _ := h3

/-- A DFA run that starts in a proper state never halts in `Start`. -/
theorem munch_ne_start (fuel : Nat) (st : St) (s : State)
    (h : s ≠ State.Start) : (munch fuel st s).2 ≠ State.Start := by
  induction fuel generalizing st s with
  | zero => exact h
  | succ fuel ih =>
    simp only [munch]
    cases hn : handleNumericLiteral s (current st) (classify (current st)) with
    | none =>
      simp only
      cases ht : T s (classify (current st)) with
      | none => exact h
      | some ns => exact ih _ ns (T_target_ne_start _ _ _ ht)
    | some sp =>
      simp only
      cases ht : T sp (classify (current st)) with
      | none =>
        rcases handleNumericLiteral_target _ _ _ _ hn with h' | h' <;>
          simp [h']
      | some ns => exact ih _ ns (T_target_ne_start _ _ _ ht)

/-- A DFA run from `Start` that halts back in `Start` consumed nothing: the
state is returned unchanged. -/
theorem munch_start_halt (fuel : Nat) (st : St)
    (h : (munch fuel st State.Start).2 = State.Start) :
    munch fuel st State.Start = (st, State.Start) := by
  cases fuel with
  | zero => rfl
  | succ fuel =>
    simp only [munch, handleNumericLiteral_start] at h ⊢
    cases ht : T State.Start (classify (current st)) with
    | none => rfl
    | some ns =>
      rw [ht] at h
      exact absurd h (munch_ne_start _ _ _ (T_target_ne_start _ _ _ ht))

/-- A DFA run from `Start` that halts in a proper state consumed at least one
character. -/
theorem munch_start_progress (fuel : Nat) (st : St)
    (h : (munch fuel st State.Start).2 ≠ State.Start) :
    st.index < (munch fuel st State.Start).1.index := by
  cases fuel with
  | zero => exact absurd rfl h
  | succ fuel =>
    simp only [munch, handleNumericLiteral_start] at h ⊢
    cases ht : T State.Start (classify (current st)) with
    | none => rw [ht] at h; exact absurd rfl h
    | some ns =>
      rw [ht] at h
      dsimp only
      obtain ⟨-, -, h3⟩ := munch_pres fuel (consume st).2 ns
      have := consume_index st
      omega

/-- The string-literal loop preserves the source, moves only forward, and on
success pushes exactly one `STRING` token ending at the final cursor. -/
theorem stringLoop_spec (fuel : Nat) (st : St) (qc : Option Char)
    (sp : Position) (val : List Char) (st' : St)
    (h : stringLoop fuel st qc sp val = .ok st') :
    st'.source = st.source ∧ st.index ≤ st'.index ∧
    ∃ v, st'.tokens = st.tokens ++ [⟨.STRING, v, sp, position st'⟩] := by
  induction fuel generalizing st val with
  | zero => exact absurd h (by simp [stringLoop, throwUnterminated])
  | succ fuel ih =>
    simp only [stringLoop] at h
    split at h
    · exact absurd h (by simp [throwUnterminated])
    · split at h
      · -- closing quote found: one token is pushed
        injection h with h
        subst h
        refine ⟨?_, ?_, String.mk val, ?_⟩
        · rw [createToken_source, consume_source]
        · rw [createToken_index, consume_index]; exact Nat.le_succ _
        · rw [createToken_tokens, consume_tokens, position_createToken]
      · split at h
        · -- dead escape branch (the two-character comparison never matches,
          -- but the bookkeeping is still proved for it)
          obtain ⟨h1, h2, v, h3⟩ := ih _ _ h
          refine ⟨?_, ?_, v, ?_⟩
          · rw [h1, consume_source, consume_source]
          · have e1 := consume_index st
            have e2 := consume_index (consume st).2
            omega
          · rw [h3, consume_tokens, consume_tokens]
        · obtain ⟨h1, h2, v, h3⟩ := ih _ _ h
          refine ⟨?_, ?_, v, ?_⟩
          · rw [h1, consume_source]
          · have e1 := consume_index st
            omega
          · rw [h3, consume_tokens]

theorem cover_extend (src : List Char) (a b : Nat) (h : a ≤ b) :
    src.take a ++ (src.drop a).take (b - a) = src.take b := by
  conv_rhs => rw [show b = a + (b - a) by omega]
  rw [List.take_add]

/-- `Delimiters` consumes one character and pushes one token spanning it. -/
theorem Delimiters_spec (st : St) :
    (Delimiters st).source = st.source ∧
    (Delimiters st).index = st.index + 1 ∧
    ∃ tok : Token, (Delimiters st).tokens = st.tokens ++ [tok] ∧
      tok.start.index = st.index ∧ tok.«end».index = st.index + 1 := by
  unfold Delimiters
  dsimp only
  refine ⟨by rw [createToken_source, consume_source],
    by rw [createToken_index, consume_index], ?_⟩
  refine ⟨_, by rw [createToken_tokens, consume_tokens], rfl, ?_⟩
  show (consume st).2.index = st.index + 1
  exact consume_index st

/-- Shape of every token-emitting branch of the driver switch: the pushed
token spans exactly the characters the iteration consumed. -/
theorem emit_spec (st stm st' : St) (t : TokenType) (v : String)
    (h : createToken stm t v (position st) (position stm) = st')
    (hsrc : stm.source = st.source) (htok : stm.tokens = st.tokens)
    (hidx : st.index < stm.index) :
    st'.source = st.source ∧ st.index < st'.index ∧
    ∃ tok : Token, st'.tokens = st.tokens ++ [tok] ∧
      tok.start.index = st.index ∧ tok.«end».index = st'.index := by
  subst h
  refine ⟨by rw [createToken_source, hsrc],
    by rw [createToken_index]; exact hidx,
    ⟨t, v, position st, position stm⟩,
    by rw [createToken_tokens, htok], rfl, by rw [createToken_index]; rfl⟩

/-- Every successful driver iteration on a non-exhausted stream preserves the
source, strictly advances the cursor, and pushes exactly one token whose
span is the consumed interval. -/
theorem tokenizeStep_spec (st st' : St) (h : tokenizeStep st = .ok st')
    (hne : isEof st = false) :
    st'.source = st.source ∧ st.index < st'.index ∧
    ∃ tok : Token, st'.tokens = st.tokens ++ [tok] ∧
      tok.start.index = st.index ∧ tok.«end».index = st'.index := by
  unfold tokenizeStep at h
  split at h
  · -- string-literal branch
    unfold handleStringLiteral at h
    dsimp only at h
    obtain ⟨h1, h2, v, h3⟩ := stringLoop_spec _ _ _ _ _ _ h
    have e1 := consume_index st
    refine ⟨by rw [h1, consume_source], by omega,
      ⟨.STRING, v, position st, position st'⟩, ?_, rfl, rfl⟩
    rw [h3, consume_tokens]
  · -- DFA branch
    dsimp only at h
    rcases hm : munch (st.source.length + 1) st State.Start with ⟨stm, s⟩
    rw [hm] at h
    dsimp only at h
    obtain ⟨hsrc, htok, hidx⟩ := munch_pres (st.source.length + 1) st State.Start
    rw [hm] at hsrc htok hidx
    dsimp only at hsrc htok hidx
    have hprog : s ≠ State.Start → st.index < stm.index := by
      intro hs
      have := munch_start_progress (st.source.length + 1) st
        (by rw [hm]; exact hs)
      rwa [hm] at this
    cases s with
    | Start =>
      have hstm : stm = st := by
        have := munch_start_halt (st.source.length + 1) st (by rw [hm])
        rw [hm] at this
        exact (Prod.mk.injEq _ _ _ _ ▸ this).1
      subst hstm
      rw [hne] at h
      simp only [Bool.false_eq_true, if_false] at h
      injection h with h
      subst h
      obtain ⟨d1, d2, tok, d3, d4, d5⟩ := Delimiters_spec stm
      exact ⟨d1, by omega, tok, d3, d4, by omega⟩
    | Whitespace =>
      injection h with h
      exact emit_spec st stm st' _ _ h hsrc htok (hprog (by simp))
    | Percent =>
      injection h with h
      exact emit_spec st stm st' _ _ h hsrc htok (hprog (by simp))
    | Identifier =>
      injection h with h
      exact emit_spec st stm st' _ _ h hsrc htok (hprog (by simp))
    | Hex =>
      injection h with h
      exact emit_spec st stm st' _ _ h hsrc htok (hprog (by simp))
    | Integer =>
      injection h with h
      exact emit_spec st stm st' _ _ h hsrc htok (hprog (by simp))
    | Fraction =>
      injection h with h
      exact emit_spec st stm st' _ _ h hsrc htok (hprog (by simp))
    | Exponent =>
      injection h with h
      exact emit_spec st stm st' _ _ h hsrc htok (hprog (by simp))
    | Dimension =>
      injection h with h
      exact emit_spec st stm st' _ _ h hsrc htok (hprog (by simp))
    | Sign => exact absurd h (by simp)
    | ExponentStart => exact absurd h (by simp)

/-- The driver loop, on successful exit, has consumed the whole source while
keeping the token slices a tiling of the consumed prefix. -/
theorem tokenizeLoop_cover (fuel : Nat) (st st' : St)
    (h : tokenizeLoop fuel st = some (.ok st'))
    (hc : (st.tokens.map (sliceOfToken st.source)).flatten = st.source.take st.index) :
    st'.source = st.source ∧ isEof st' = true ∧
    (st'.tokens.map (sliceOfToken st.source)).flatten = st.source.take st'.index := by
  induction fuel generalizing st with
  | zero => simp [tokenizeLoop] at h
  | succ fuel ih =>
    simp only [tokenizeLoop] at h
    split at h
    · obtain rfl : st = st' := by simpa using h
      refine ⟨rfl, ?_, hc⟩
      simpa using ‹isEof st = true›
    · have hne : isEof st = false := by
        rename_i hcond
        simpa using hcond
      cases hs : tokenizeStep st with
      | error e => rw [hs] at h; simp at h
      | ok st1 =>
        rw [hs] at h
        dsimp only at h
        obtain ⟨hsrc1, hlt, tok, htoks, hts, hte⟩ := tokenizeStep_spec st st1 hs hne
        have hc1 : (st1.tokens.map (sliceOfToken st1.source)).flatten =
            st1.source.take st1.index := by
          rw [hsrc1, htoks]
          simp only [List.map_append, List.flatten_append, List.map_cons,
            List.map_nil, List.flatten_cons, List.flatten_nil, List.append_nil]
          rw [hc]
          unfold sliceOfToken
          rw [hts, hte]
          exact cover_extend _ _ _ (Nat.le_of_lt hlt)
        obtain ⟨h1, h2, h3⟩ := ih st1 h hc1
        rw [hsrc1] at h1 h3
        exact ⟨h1, h2, h3⟩

/-- The fuel passed by `tokenize` — one unit per character plus one — never
runs out: each iteration consumes at least one character. -/
theorem tokenizeLoop_ne_none (fuel : Nat) (st : St)
    (h : st.source.length - st.index < fuel) : tokenizeLoop fuel st ≠ none := by
  induction fuel generalizing st with
  | zero => omega
  | succ fuel ih =>
    simp only [tokenizeLoop]
    split
    · simp
    · have hne : isEof st = false := by
        rename_i hcond
        simpa using hcond
      cases hs : tokenizeStep st with
      | error e => simp
      | ok st1 =>
        dsimp only
        apply ih
        obtain ⟨hsrc1, hlt, -⟩ := tokenizeStep_spec st st1 hs hne
        have hin : st.index < st.source.length := by
          unfold isEof at hne
          simpa using hne
        have : st1.source.length = st.source.length := by rw [hsrc1]
        omega

end CP

/-- Two strings with the same character data are equal. -/
theorem string_eq_of_data (a b : String) (h : a.data = b.data) : a = b :=
  congrArg String.mk h

/-- String concatenation concatenates the character data. -/
theorem data_append (a b : String) : (a ++ b).data = a.data ++ b.data := rfl

/-!
## The claims
-/

open CP

/-- Claim C1 (code bug): the spec says every input, including the empty
string, ends in exactly one zero-width EOF token.  The constructor
(`Tokenizer.ts` lines 289-292) runs `tokenize()` only when
`source.length > 0`, so for the empty string the exposed token list is
empty — it contains no EOF token at all, contradicting the repository's own
test `expect(new Tokenizer('').tokens.at(-1)?.type).toBe(TokenType.EOF)`. -/
theorem C1_empty_input_yields_no_eof_token :
    tokenizerConstructor "" = ([], none) := rfl

/-- Claim C2 (code bug): the spec says `tokenize` fails by raising the
`DiagnosticError` to its caller and never leaves a partial token list.  The
`try`/`catch` in `tokenize` (lines 404-410) catches the error, logs it, and
returns normally, and the `tokens` getter still exposes the tokens pushed
before the throw: on `a "x` the caller sees the partial list
`[IDENTIFIER, WHITESPACE]` (without EOF) while the unterminated-string
diagnostic is merely logged.  The repository's own test
`expect(() => new Tokenizer('"oops')).toThrow(DiagnosticError)` expects the
propagating behaviour. -/
theorem C2_diagnostic_caught_and_partial_tokens_exposed :
    tokenize "a \"x" =
      ([⟨.IDENTIFIER, "a", ⟨0,1,1⟩, ⟨1,1,2⟩⟩,
        ⟨.WHITESPACE, " ", ⟨1,1,2⟩, ⟨2,1,3⟩⟩],
       some { message := "Unterminated string literal"
              source := "a \"x"
              start := some ⟨2,1,3⟩
              «end» := some ⟨4,1,5⟩
              hint := some "A string that starts with \" must be closed with a matching \"." }) :=
  rfl

/-- Claim C3 (code bug): the spec says `12e3` is one NUMBER, `12em` and
`12e` are DIMENSION tokens.  In the code, `handleNumericLiteral` diverts
`e`/`E` to `ExponentStart` and consumes it, but the same loop iteration then
looks up `T[ExponentStart]` with the stale `Letter` class (lines 320-323),
finds no transition, and halts in the non-accepting `ExponentStart` state:
every exponent-looking input — including `1e10` from the repository's own
passing-expectation test — raises the caught-and-logged `Invalid token`
diagnostic and produces no tokens, while `12px` still works via the
`Dimension` state. -/
theorem C3_exponent_scan_raises_invalid_token :
    tokenize "12e3" =
      ([], some { message := "Invalid token", source := "12e3",
                  start := some ⟨0,1,1⟩, «end» := some ⟨3,1,4⟩,
                  hint := some "Check the CSS color syntax at this location" }) ∧
    tokenize "1e10" =
      ([], some { message := "Invalid token", source := "1e10",
                  start := some ⟨0,1,1⟩, «end» := some ⟨2,1,3⟩,
                  hint := some "Check the CSS color syntax at this location" }) ∧
    tokenize "12em" =
      ([], some { message := "Invalid token", source := "12em",
                  start := some ⟨0,1,1⟩, «end» := some ⟨3,1,4⟩,
                  hint := some "Check the CSS color syntax at this location" }) ∧
    tokenize "12e" =
      ([], some { message := "Invalid token", source := "12e",
                  start := some ⟨0,1,1⟩, «end» := some ⟨3,1,4⟩,
                  hint := some "Check the CSS color syntax at this location" }) ∧
    tokenize "12px" =
      ([⟨.DIMENSION, "12px", ⟨0,1,1⟩, ⟨4,1,5⟩⟩,
        ⟨.EOF, "<end>", ⟨4,1,5⟩, ⟨4,1,5⟩⟩], none) :=
  ⟨rfl, rfl, rfl, rfl, rfl⟩

/-- Claim C4 counterexample: the claim says a name run followed by `(` is
emitted as FUNCTION.  The DFA tokenizer's `TokenType` has no FUNCTION member
and its accepting switch maps the `Identifier` state to IDENTIFIER without
any lookahead: `rgb(` tokenizes to IDENTIFIER followed by LPAREN, never
FUNCTION. -/
theorem C4_counterexample_rgb_paren_is_identifier_not_function :
    tokenize "rgb(" =
      ([⟨.IDENTIFIER, "rgb", ⟨0,1,1⟩, ⟨3,1,4⟩⟩,
        ⟨.LPAREN, "(", ⟨3,1,4⟩, ⟨4,1,5⟩⟩,
        ⟨.EOF, "<end>", ⟨4,1,5⟩, ⟨4,1,5⟩⟩], none) := rfl

/-- Claim C4 (amended): in the DFA tokenizer a letter/digit name run is
emitted as IDENTIFIER regardless of whether `(` follows — `rgb(` yields
IDENTIFIER then LPAREN, `rgb` alone yields IDENTIFIER — because the
accepting map sends the `Identifier` state to IDENTIFIER unconditionally;
the FUNCTION-vs-IDENTIFIER lookahead exists only in earlier drafts. -/
theorem C4_amended_name_run_emits_identifier_regardless :
    (tokenize "rgb").1 =
      [⟨.IDENTIFIER, "rgb", ⟨0,1,1⟩, ⟨3,1,4⟩⟩,
       ⟨.EOF, "<end>", ⟨3,1,4⟩, ⟨3,1,4⟩⟩] ∧
    (tokenize "rgb(").1.map Token.type = [.IDENTIFIER, .LPAREN, .EOF] ∧
    (tokenize "oklch(").1.map Token.type = [.IDENTIFIER, .LPAREN, .EOF] ∧
    Accepting State.Identifier = some TokenType.IDENTIFIER :=
  ⟨rfl, rfl, rfl, rfl⟩

/-- Claim C5 counterexample: the claim says a hex run whose digit count is
not 3, 4, 6 or 8 raises a diagnostic.  The DFA tokenizer's `Hex` state
accepts any digit/letter run with no length validation: `#ff` is emitted as
a HEXVALUE token and no diagnostic is raised. -/
theorem C5_counterexample_short_hex_emits_hexvalue_without_diagnostic :
    tokenize "#ff" =
      ([⟨.HEXVALUE, "#ff", ⟨0,1,1⟩, ⟨3,1,4⟩⟩,
        ⟨.EOF, "<end>", ⟨3,1,4⟩, ⟨3,1,4⟩⟩], none) := rfl

/-- Claim C5 (amended): the DFA tokenizer performs no hex-length validation
(`#ff` and `#fffff` both emit HEXVALUE); the 3/4/6/8-digit rule lives only
in the draft `HexColor` scanner of part_006, which accepts `#fff`, `#ffff`,
`#ffffff`, `#ffffffff` and throws `SyntaxError('HexColor, invalid
length: N.')` for other counts — a message naming the actual invalid total
length, with no hint naming the valid lengths. -/
theorem C5_amended_length_validation_only_in_draft_scanner :
    (tokenize "#ff").1.map Token.type = [.HEXVALUE, .EOF] ∧
    (tokenize "#fffff").1.map Token.type = [.HEXVALUE, .EOF] ∧
    HexDraft.HexColor ⟨"#fff".toList, 0⟩ = .ok ⟨"HEXCOLOR", "#fff", 0, 4⟩ ∧
    HexDraft.HexColor ⟨"#ffff".toList, 0⟩ = .ok ⟨"HEXCOLOR", "#ffff", 0, 5⟩ ∧
    HexDraft.HexColor ⟨"#ffffff".toList, 0⟩ = .ok ⟨"HEXCOLOR", "#ffffff", 0, 7⟩ ∧
    HexDraft.HexColor ⟨"#ffffffff".toList, 0⟩ = .ok ⟨"HEXCOLOR", "#ffffffff", 0, 9⟩ ∧
    HexDraft.HexColor ⟨"#ff".toList, 0⟩ = .error "HexColor, invalid length: 3." ∧
    HexDraft.HexColor ⟨"#fffff".toList, 0⟩ = .error "HexColor, invalid length: 6." :=
  ⟨rfl, rfl, rfl, rfl, rfl, rfl, rfl, rfl⟩

/-- Claim C6 (code bug): the spec says a backslash escapes the following
character, which is kept in the token text, and that
`"he said \"hi\""` yields a single STRING token containing the escapes
verbatim (the repository's own test expects exactly that value).  The escape
test `char === '\\\\'` (line 515) compares the one-character `current()`
against a TWO-character string, so it never fires: the backslash is copied
as an ordinary character, the escaped quote then closes the string early,
and the input tokenizes to STRING `he said \`, IDENTIFIER `hi`, a DELIMITER
backslash, an empty STRING, and EOF. -/
theorem C6_escaped_quote_terminates_string_early :
    tokenize "\"he said \\\"hi\\\"\"" =
      ([⟨.STRING, "he said \\", ⟨0,1,1⟩, ⟨11,1,12⟩⟩,
        ⟨.IDENTIFIER, "hi", ⟨11,1,12⟩, ⟨13,1,14⟩⟩,
        ⟨.DELIMITER, "\\", ⟨13,1,14⟩, ⟨14,1,15⟩⟩,
        ⟨.STRING, "", ⟨14,1,15⟩, ⟨16,1,17⟩⟩,
        ⟨.EOF, "<end>", ⟨16,1,17⟩, ⟨16,1,17⟩⟩], none) := rfl

/-- Claim C7 counterexample: the claim says a character outside the fixed
punctuation map makes `tokenize` raise an `Unexpected character` diagnostic
and never emit a fallback token.  `Delimiters` (lines 438-444) instead falls
back to a DELIMITER token: on `@` the tokenizer emits DELIMITER `@` and
raises nothing. -/
theorem C7_counterexample_unknown_character_yields_delimiter_fallback :
    tokenize "@" =
      ([⟨.DELIMITER, "@", ⟨0,1,1⟩, ⟨1,1,2⟩⟩,
        ⟨.EOF, "<end>", ⟨1,1,2⟩, ⟨1,1,2⟩⟩], none) := rfl

/-- Claim C7 (amended): when the maximal-munch loop consumes zero characters
(every character class without a `Start` transition, quotes excluded), the
single character is mapped through `specificTokens`
(`(`, `)`, `,`, `/`, `+`, `-`, `*`) and any character outside that map is
emitted as a DELIMITER fallback token — no diagnostic is raised. -/
theorem C7_amended_unmapped_characters_fall_back_to_delimiter (c : Char)
    (h : classify (some c) = .Plus ∨ classify (some c) = .Minus ∨
         classify (some c) = .Percent ∨ classify (some c) = .LParen ∨
         classify (some c) = .RParen ∨ classify (some c) = .Comma ∨
         classify (some c) = .Slash ∨ classify (some c) = .Operator ∨
         classify (some c) = .Other) :
    tokenize (String.mk [c]) =
      ([⟨(specificTokens c).getD .DELIMITER, String.mk [c], ⟨0,1,1⟩, ⟨1,1,2⟩⟩,
        ⟨.EOF, "<end>", ⟨1,1,2⟩, ⟨1,1,2⟩⟩], none) := by
  have hq : classify (some c) ≠ CharClass.Quote := by
    rcases h with h|h|h|h|h|h|h|h|h <;> simp [h]
  have hne : c ≠ '\n' := by
    intro hc; subst hc
    rcases h with h|h|h|h|h|h|h|h|h <;> exact absurd h (by decide)
  have hT : T State.Start (classify (some c)) = none := by
    rcases h with h|h|h|h|h|h|h|h|h <;> rw [h] <;> rfl
  have hcur : current ⟨[c], 0, 1, 1, []⟩ = some c := rfl
  have hcons : consume ⟨[c], 0, 1, 1, []⟩ = (some c, ⟨[c], 1, 1, 2, []⟩) := by
    simp only [consume]
    have hg : ([c].get? 0) = some c := rfl
    rw [hg, if_neg (by simpa using hne)]
  have hmunch : munch ([c].length + 1) ⟨[c], 0, 1, 1, []⟩ State.Start =
      (⟨[c], 0, 1, 1, []⟩, State.Start) := by
    simp only [List.length_cons, List.length_nil]
    simp only [munch, hcur, handleNumericLiteral_start, hT]
  have hstep : tokenizeStep ⟨[c], 0, 1, 1, []⟩ = .ok
      ⟨[c], 1, 1, 2, [⟨(specificTokens c).getD .DELIMITER, String.mk [c], ⟨0,1,1⟩, ⟨1,1,2⟩⟩]⟩ := by
    unfold tokenizeStep
    rw [hcur, if_neg hq]
    simp only [hmunch]
    show Except.ok (if isEof _ = true then _ else Delimiters _) = _
    rw [if_neg (by simp [isEof])]
    unfold Delimiters
    simp only [hcons]
    rfl
  have hloop : tokenizeLoop ([c].length + 1) ⟨[c], 0, 1, 1, []⟩ = some (.ok
      ⟨[c], 1, 1, 2, [⟨(specificTokens c).getD .DELIMITER, String.mk [c], ⟨0,1,1⟩, ⟨1,1,2⟩⟩]⟩) := by
    simp only [List.length_cons, List.length_nil]
    simp only [tokenizeLoop, hstep]
    rw [if_neg (by simp [isEof])]
    rw [if_pos (by simp [isEof])]
  unfold tokenize
  simp only [show (String.mk [c]).toList = [c] from rfl]
  rw [hloop]
  rfl

/-- Witness for the amended claim C7, at the concrete character `@`. -/
theorem C7_amended_unmapped_characters_fall_back_to_delimiter_witness :
    CP.classify (some '@') = CP.CharClass.Other ∧
    tokenize (String.mk ['@']) =
      ([⟨(specificTokens '@').getD .DELIMITER, String.mk ['@'], ⟨0,1,1⟩, ⟨1,1,2⟩⟩,
        ⟨.EOF, "<end>", ⟨1,1,2⟩, ⟨1,1,2⟩⟩], none) :=
  ⟨by decide, C7_amended_unmapped_characters_fall_back_to_delimiter '@' (by decide)⟩

/-- Claim C8 counterexample: the claim says the concatenation of token
slices reconstructs the source for every input.  On the lone-quote input
`"` the unterminated-string diagnostic is thrown and caught, the exposed
token list is empty, and the concatenation of its slices is empty — it does
not reconstruct the one-character source. -/
theorem C8_counterexample_error_run_loses_coverage :
    tokenize "\"" =
      ([], some { message := "Unterminated string literal", source := "\"",
                  start := some ⟨0,1,1⟩, «end» := some ⟨1,1,2⟩,
                  hint := some "A string that starts with \" must be closed with a matching \"." }) ∧
    ((tokenize "\"").1.map (sliceOfToken "\"".toList)).flatten ≠ "\"".toList :=
  ⟨rfl, by decide⟩

/-- Claim C8 (amended): for every input on which `tokenize` completes
without a caught diagnostic, the concatenation of consecutive tokens'
source slices (from each token's `start.index` to its `end.index`, in
emission order) reconstructs the original source exactly. -/
theorem C8_amended_successful_tokenization_is_lossless (input : String)
    (h : (tokenize input).2 = none) :
    ((tokenize input).1.map (sliceOfToken input.toList)).flatten = input.toList := by
  unfold tokenize at h ⊢
  dsimp only at h ⊢
  cases hl : tokenizeLoop (input.toList.length + 1)
      (⟨input.toList, 0, 1, 1, []⟩ : St) with
  | none =>
    exact absurd hl (tokenizeLoop_ne_none _ _ (by simp))
  | some r =>
    cases r with
    | error e =>
      obtain ⟨est, err⟩ := e
      rw [hl] at h
      simp at h
    | ok stf =>
      rw [hl] at h
      dsimp only at h ⊢
      obtain ⟨hsrc, heof, hcov⟩ := tokenizeLoop_cover _ _ _ hl (by simp)
      dsimp only at hsrc hcov
      rw [createToken_tokens]
      simp only [List.map_append, List.flatten_append, List.map_cons,
        List.map_nil, List.flatten_cons, List.flatten_nil, List.append_nil]
      rw [hcov]
      have hlen : input.toList.length ≤ stf.index := by
        have h2 := heof
        unfold isEof at h2
        rw [hsrc] at h2
        simpa using h2
      have hslice : sliceOfToken input.toList
          ⟨TokenType.EOF, "<end>", position stf, position stf⟩ = [] := by
        simp [sliceOfToken]
      rw [hslice, List.append_nil, List.take_of_length_le hlen]

/-- Witness for the amended claim C8, at the concrete input `a 1`. -/
theorem C8_amended_successful_tokenization_is_lossless_witness :
    (tokenize "a 1").2 = none ∧
    ((tokenize "a 1").1.map (sliceOfToken "a 1".toList)).flatten = "a 1".toList :=
  ⟨rfl, C8_amended_successful_tokenization_is_lossless "a 1" rfl⟩

/-- Claim C9 (confirmed): in the refactored `CharacterStream`, once the
current character is the EOF character, `consume()` returns that same
EOF-classed character and changes nothing — no history push, no cursor
movement — so any number of further `consume()` calls leaves the stream
identical. -/
theorem C9_consume_is_idempotent_at_eof (s : CSR.CharacterStream)
    (h : s.character.type = CSR.CharType.EOF) :
    (CSR.consume s).1 = s.character ∧ (CSR.consume s).2 = s ∧
    ∀ n, CSR.consumeN n s = s := by
  have hc : CSR.consume s = (s.character, s) := by
    unfold CSR.consume
    rw [if_neg (by simp [h])]
  refine ⟨by rw [hc], by rw [hc], ?_⟩
  intro n
  induction n with
  | zero => rfl
  | succ n ih =>
    show CSR.consumeN n (CSR.consume s).2 = s
    rw [hc]
    exact ih

/-- Witness for claim C9: the stream over the empty source starts at its EOF
character and consuming leaves it unchanged. -/
theorem C9_consume_is_idempotent_at_eof_witness :
    (CSR.init "".toList).character.type = CSR.CharType.EOF ∧
    (CSR.consume (CSR.init "".toList)).2 = CSR.init "".toList :=
  ⟨rfl, (C9_consume_is_idempotent_at_eof (CSR.init "".toList) rfl).2.1⟩

/-- Claim C10 (confirmed): `formatDiagnostic` is a pure function of the
error producing the message followed by ` (line L, column C)`, a blank line,
the source line at `start.line` (source split on `\r?\n`, 1-indexed), and a
caret line of `start.column - 1` spaces followed by
`max(1, end.index - start.index)` carets, then a blank line and
`Hint: <hint>` when a hint is present (a single trailing newline
otherwise).  Stated for errors whose start position is present with
`line, column ≥ 1` — true of every position the tokenizer creates; for a
missing start position the JS code would substitute column 0 and throw a
`RangeError` from `' '.repeat(-1)`. -/
theorem C10_formatDiagnostic_renders_header_line_and_caret
    (err : DiagnosticError) (p : Position)
    (hstart : err.start = some p) (hline : 1 ≤ p.line) (_hcol : 1 ≤ p.column) :
    formatDiagnostic err =
      err.message ++ " (line " ++ toString p.line ++ ", column " ++
        toString p.column ++ ")" ++ "\n\n" ++
      ((splitRN err.source).get? (p.line - 1)).getD "" ++ "\n" ++
      repeatChar ' ' (p.column - 1) ++
      repeatChar '^' (max 1 ((err.«end».map Position.index).getD 0 - p.index)) ++
      (match err.hint with
       | some hh => "\n" ++ "\nHint: " ++ hh
       | none => "\n") := by
  unfold formatDiagnostic
  rw [hstart]
  simp only [Option.map_some', Option.getD_some]
  rw [if_neg (by omega)]
  cases hh : err.hint with
  | none =>
    apply string_eq_of_data
    simp only [joinNL, data_append,
      show ("" : String).data = [] from rfl,
      show ("\n" : String).data = ['\n'] from rfl,
      show ("\n\n" : String).data = ['\n', '\n'] from rfl,
      List.append_assoc, List.nil_append, List.append_nil, List.cons_append]
  | some hstr =>
    apply string_eq_of_data
    simp only [joinNL, data_append,
      show ("" : String).data = [] from rfl,
      show ("\n" : String).data = ['\n'] from rfl,
      show ("\n\n" : String).data = ['\n', '\n'] from rfl,
      List.append_assoc, List.nil_append, List.append_nil, List.cons_append]

/-- Witness for claim C10: a single-character error at column 5 of a
one-line source renders a caret line of exactly four spaces and one
caret. -/
theorem C10_formatDiagnostic_renders_header_line_and_caret_witness :
    ({ message := "Unexpected character '@'", source := "rgb(@ 10)",
       start := some ⟨4,1,5⟩, «end» := some ⟨5,1,6⟩,
       hint := none } : DiagnosticError).start = some (⟨4,1,5⟩ : Position) ∧
    (1 : Nat) ≤ 1 ∧ (1 : Nat) ≤ 5 ∧
    formatDiagnostic
      { message := "Unexpected character '@'", source := "rgb(@ 10)",
        start := some ⟨4,1,5⟩, «end» := some ⟨5,1,6⟩, hint := none } =
    "Unexpected character '@' (line 1, column 5)\n\nrgb(@ 10)\n    ^\n" := by
  refine ⟨rfl, by decide, by decide, ?_⟩
  rw [C10_formatDiagnostic_renders_header_line_and_caret _ ⟨4,1,5⟩ rfl
    (by decide) (by decide)]
  rfl
